import Mathlib

/-!  Verification of the CME enrichment, cross-event correlation and
ranking/partition engine of the solar-dashboard repository.  The data types
follow types.ts and the functions are translated from the Dashboard component
(isPotentiallyEarthRelevant, enhanceCMEData, the flare and shock correlation
loops, earthDirectedCMEs and otherCMEs).  JavaScript numbers that may be
Infinity are modelled by JsNum, JavaScript truthiness of the values the code
actually tests is modelled explicitly (0, the empty string, null and undefined
are falsy), and Date parsing of the ISO-8601 UTC timestamps used by the DONKI
feed is modelled by getTime. -/

/-- JavaScript number restricted to the values the scoring code stores in
earthImpactScore: a natural number or Infinity. -/
inductive JsNum where
  | fin (n : Nat)
  | inf
deriving DecidableEq, Repr

/-- Boolean comparison a <= b on JsNum values; Infinity is the greatest. -/
def JsNum.leB : JsNum → JsNum → Bool
  | JsNum.fin m, JsNum.fin n => decide (m ≤ n)
  | JsNum.fin _, JsNum.inf => true
  | JsNum.inf, JsNum.fin _ => false
  | JsNum.inf, JsNum.inf => true

/-- Boolean comparison a < b on JsNum values; Infinity is the greatest. -/
def JsNum.ltB : JsNum → JsNum → Bool
  | JsNum.fin m, JsNum.fin n => decide (m < n)
  | JsNum.fin _, JsNum.inf => true
  | JsNum.inf, _ => false

/-- Models the JavaScript expression score || Infinity: the number 0 is falsy
and is replaced by Infinity, every other value is returned unchanged. -/
def scoreOrInf : JsNum → JsNum
  | JsNum.fin 0 => JsNum.inf
  | s => s

/-- Sign of the JavaScript subtraction a - b on possibly infinite numbers, as
consumed by Array.prototype.sort.  Only the sign of a comparator result is
observable, so the infinite differences are rendered as 1 and -1, and the NaN
produced by Infinity - Infinity is rendered as 0, which is how the sort
treats a NaN comparator result. -/
def jsSubSign : JsNum → JsNum → Int
  | JsNum.inf, JsNum.inf => 0
  | JsNum.inf, JsNum.fin _ => 1
  | JsNum.fin _, JsNum.inf => -1
  | JsNum.fin m, JsNum.fin n => (m : Int) - (n : Int)

/-- Decides whether pat occurs as a contiguous run inside s; models
String.prototype.includes on the underlying character lists. -/
def listHasInfix (pat : List Char) : List Char → Bool
  | [] => pat.isEmpty
  | c :: rest => pat.isPrefixOf (c :: rest) || listHasInfix pat rest

/-- Models String.prototype.includes. -/
def strIncludes (s pat : String) : Bool :=
  listHasInfix pat.data s.data

/-- Models String.prototype.toLowerCase on the ASCII notes of the feed. -/
def jsToLower (s : String) : String :=
  String.mk (s.data.map Char.toLower)

/-- Models the guarded note test of the source,
analysis.note && analysis.note.toLowerCase().includes("earth"):
the empty string is falsy, so it short-circuits to false. -/
def noteMentionsEarth (note : String) : Bool :=
  !note.isEmpty && strIncludes (jsToLower note) (("earth"))

/-- Numeric value of a list of ASCII digit characters. -/
def digitsVal (cs : List Char) : Nat :=
  cs.foldl (fun n c => 10 * n + (c.toNat - 48)) 0

/-- Days from 1970-01-01 to the given civil date, the standard civil-calendar
day-count computation used to model Date parsing. -/
def daysFromCivil (y m d : Int) : Int :=
  let y2 := if m ≤ 2 then y - 1 else y
  let era := (if 0 ≤ y2 then y2 else y2 - 399) / 400
  let yoe := y2 - era * 400
  let mp := (m + 9) % 12
  let doy := (153 * mp + 2) / 5 + d - 1
  let doe := yoe * 365 + yoe / 4 - yoe / 100 + doy
  era * 146097 + doe - 719468

/-- Models new Date(s).getTime() (milliseconds since the Unix epoch) for the
ISO-8601 UTC timestamp shapes used by the DONKI feed, YYYY-MM-DDTHH:MMZ with
optional seconds. -/
def getTime (s : String) : Int :=
  let cs := s.data
  let y : Int := digitsVal (cs.take 4)
  let mo : Int := digitsVal ((cs.drop 5).take 2)
  let d : Int := digitsVal ((cs.drop 8).take 2)
  let h : Int := digitsVal ((cs.drop 11).take 2)
  let mi : Int := digitsVal ((cs.drop 14).take 2)
  let se : Int :=
    if ((cs.drop 16).head?.map Char.toNat) = some 58 then
      digitsVal ((cs.drop 17).take 2)
    else 0
  ((daysFromCivil y mo d * 24 + h) * 3600 + mi * 60 + se) * 1000

/-- Reference to another event by activity identifier, an entry of a
linkedEvents array. -/
structure LinkedEventRef where
  activityID : String
deriving DecidableEq, Repr

/-- EnlilImpact of types.ts. -/
structure EnlilImpact where
  location : String
  arrivalTime : String
  isGlancingBlow : Bool
deriving DecidableEq, Repr

/-- EnlilSimulation of types.ts, restricted to the fields the engine reads.
Nullable and optional fields are modelled by Option. -/
structure EnlilSimulation where
  estimatedShockArrivalTime : Option String
  estimatedDuration : Option Int
  isEarthGB : Option Bool
  impactList : Option (List EnlilImpact)
deriving DecidableEq, Repr

/-- CMEAnalysis of types.ts, restricted to the fields the engine reads.  The
numeric feed fields speed and halfAngle are modelled by Int; the engine only
copies them, never computes with them. -/
structure CMEAnalysis where
  speed : Int
  halfAngle : Int
  type : String
  isMostAccurate : Bool
  note : String
  enlilList : Option (List EnlilSimulation)
deriving DecidableEq, Repr

/-- CME of types.ts, restricted to the fields the engine reads. -/
structure CME where
  activityID : String
  startTime : String
  sourceLocation : String
  note : String
  link : String
  linkedEvents : Option (List LinkedEventRef)
  cmeAnalyses : Option (List CMEAnalysis)
deriving DecidableEq, Repr

/-- EnhancedCME of types.ts: the CME fields kept by the object spread plus the
derived fields the enrichment engine assigns.  Fields that the engine assigns
only conditionally are Option with none for absent. -/
structure EnhancedCME where
  activityID : String
  startTime : String
  sourceLocation : String
  note : String
  link : String
  linkedEvents : Option (List LinkedEventRef)
  cmeAnalyses : Option (List CMEAnalysis)
  earthImpactScore : JsNum
  displayAnalysisSpeed : Option Int
  displayAnalysisHalfAngle : Option Int
  displayAnalysisType : Option String
  displayAnalysisNote : Option String
  displayEnlilArrivalTime : Option String
  displayEnlilDuration : Option Int
  displayEnlilImpactLocations : Option (List String)
  isPotentiallyEarthDirected : Bool
deriving DecidableEq, Repr

/-- AssociatedCMEInfo of types.ts: the projection of an EnhancedCME that the
flare correlation attaches. -/
structure AssociatedCMEInfo where
  activityID : String
  startTime : String
  note : String
  link : String
  earthImpactScore : JsNum
deriving DecidableEq, Repr

/-- SolarFlare of types.ts, restricted to the fields the correlator reads and
writes. -/
structure SolarFlare where
  flrID : String
  beginTime : String
  classType : String
  linkedEvents : Option (List LinkedEventRef)
  associatedCMEs : Option (List AssociatedCMEInfo)
deriving DecidableEq, Repr

/-- InterplanetaryShock of types.ts, restricted to the fields the correlator
reads and writes. -/
structure InterplanetaryShock where
  ipsID : String
  eventTime : String
  locatioN : String
  link : String
  linkedEvents : Option (List LinkedEventRef)
  associatedCMESpeed : Option Int
  associatedCMEStartTime : Option String
  associatedCMELink : Option String
  associatedCMEActivityID : Option String
deriving DecidableEq, Repr

/-- Translation of isPotentiallyEarthRelevant: with no analyses (an absent or
empty array) the result is false, otherwise some analysis must be flagged most
accurate, carry a nonempty ENLIL list, or carry a nonempty note mentioning
earth. -/
def isPotentiallyEarthRelevant (cme : CME) : Bool :=
  match cme.cmeAnalyses with
  | none => false
  | some analyses =>
    analyses.any fun a =>
      a.isMostAccurate || !(a.enlilList.getD []).isEmpty || noteMentionsEarth a.note

/-- Translation of the relevant-analysis selection of enhanceCMEData:
cme.cmeAnalyses?.find(a => a.isMostAccurate) || cme.cmeAnalyses?.[0]. -/
def relevantAnalysis (cme : CME) : Option CMEAnalysis :=
  match (cme.cmeAnalyses.getD []).find? (fun a => a.isMostAccurate) with
  | some a => some a
  | none => (cme.cmeAnalyses.getD []).head?

/-- Translation of the Earth-directed simulation test of enhanceCMEData:
enlil.isEarthGB === true || (enlil.impactList &&
enlil.impactList.some(imp => imp.location === "Earth")). -/
def isEarthSim (e : EnlilSimulation) : Bool :=
  e.isEarthGB == some true
    || (e.impactList.getD []).any (fun imp => imp.location == ("Earth"))

/-- Translation of the primary Earth simulation selection of enhanceCMEData:
the first entry of relevantAnalysis.enlilList?.filter(isEarthSim). -/
def firstEarthEnlil (ra : CMEAnalysis) : Option EnlilSimulation :=
  ((ra.enlilList.getD []).filter isEarthSim).head?

/-- JavaScript truthiness of a nullable/optional string: null, undefined and
the empty string are falsy. -/
def jsTruthyStr : Option String → Bool
  | none => false
  | some s => !s.isEmpty

/-- Translation of
firstEarthEnlil.impactList?.map(imp => imp.location) ||
(firstEarthEnlil.isEarthGB ? ["Earth Geospace"] : []):
an array, even an empty one, is truthy, so the fallback applies exactly when
impactList is absent. -/
def jsImpactLocations (fe : EnlilSimulation) : List String :=
  match fe.impactList with
  | some il => il.map (fun imp => imp.location)
  | none => if fe.isEarthGB = some true then ["Earth Geospace"] else []

/-- State of the enhanced record before any analysis data is copied: the
object spread of the CME with earthImpactScore Infinity, the relevance flag,
and every display field still absent. -/
def baseEnhanced (cme : CME) : EnhancedCME :=
  { activityID := cme.activityID
    startTime := cme.startTime
    sourceLocation := cme.sourceLocation
    note := cme.note
    link := cme.link
    linkedEvents := cme.linkedEvents
    cmeAnalyses := cme.cmeAnalyses
    earthImpactScore := JsNum.inf
    displayAnalysisSpeed := none
    displayAnalysisHalfAngle := none
    displayAnalysisType := none
    displayAnalysisNote := none
    displayEnlilArrivalTime := none
    displayEnlilDuration := none
    displayEnlilImpactLocations := none
    isPotentiallyEarthDirected := isPotentiallyEarthRelevant cme }

/-- Branch of enhanceCMEData taken when a primary Earth simulation exists:
copy its arrival time, duration and impact locations, then score 1 if the
arrival time is truthy and 2 otherwise. -/
def scoreEarthSim (b : EnhancedCME) (fe : EnlilSimulation) : EnhancedCME :=
  let b1 := { b with
    displayEnlilArrivalTime := fe.estimatedShockArrivalTime
    displayEnlilDuration := fe.estimatedDuration
    displayEnlilImpactLocations := some (jsImpactLocations fe) }
  if jsTruthyStr fe.estimatedShockArrivalTime then
    { b1 with earthImpactScore := JsNum.fin 1 }
  else
    { b1 with earthImpactScore := JsNum.fin 2 }

/-- Branch of enhanceCMEData taken, with no primary Earth simulation, when the
note of the relevant analysis mentions earth: optionally adopt the first
impact arrival of any simulation with a nonempty impact list, then score 3.
The score > 2 guards of the source are kept. -/
def scoreNoteEarth (b : EnhancedCME) (ra : CMEAnalysis) : EnhancedCME :=
  let anyEnlilWithImpact :=
    (ra.enlilList.getD []).find? (fun e => !(e.impactList.getD []).isEmpty)
  let b1 :=
    match anyEnlilWithImpact with
    | some e =>
      if JsNum.ltB (JsNum.fin 2) b.earthImpactScore then
        { b with displayEnlilArrivalTime :=
            ((e.impactList.getD []).head?).map (fun imp => imp.arrivalTime) }
      else b
    | none => b
  if JsNum.ltB (JsNum.fin 2) b1.earthImpactScore then
    { b1 with earthImpactScore := JsNum.fin 3 }
  else b1

/-- Translation of enhanceCMEData. -/
def enhanceCMEData (cme : CME) : EnhancedCME :=
  let base := baseEnhanced cme
  match relevantAnalysis cme with
  | none => base
  | some ra =>
    let b := { base with
      displayAnalysisSpeed := some ra.speed
      displayAnalysisHalfAngle := some ra.halfAngle
      displayAnalysisType := some ra.type
      displayAnalysisNote := some ra.note }
    match firstEarthEnlil ra with
    | some fe => scoreEarthSim b fe
    | none =>
      if noteMentionsEarth ra.note then scoreNoteEarth b ra
      else if !(ra.enlilList.getD []).isEmpty then
        if JsNum.ltB (JsNum.fin 3) b.earthImpactScore then
          { b with earthImpactScore := JsNum.fin 4 }
        else b
      else b

/-- Models the activityID -> EnhancedCME lookup map of the correlators: the
map is filled by iterating the list with Map.set, so on duplicate keys the
last occurrence wins. -/
def cmeLookup (cmes : List EnhancedCME) (id : String) : Option EnhancedCME :=
  match cmes with
  | [] => none
  | c :: rest =>
    match cmeLookup rest id with
    | some r => some r
    | none => if c.activityID == id then some c else none

/-- Projection of an EnhancedCME pushed onto a flare by the correlation loop. -/
def cmeInfoOf (c : EnhancedCME) : AssociatedCMEInfo :=
  { activityID := c.activityID
    startTime := c.startTime
    note := c.note
    link := c.link
    earthImpactScore := c.earthImpactScore }

/-- Translation of the forEach/push loop of loadFlareAndCorrelateData:
walk the linked events in order and push the projection of every identifier
the lookup resolves. -/
def buildCMEInfos (cmes : List EnhancedCME) : List LinkedEventRef → List AssociatedCMEInfo
  | [] => []
  | le :: rest =>
    match cmeLookup cmes le.activityID with
    | some c => cmeInfoOf c :: buildCMEInfos cmes rest
    | none => buildCMEInfos cmes rest

/-- Translation of the per-flare body of loadFlareAndCorrelateData:
associatedCMEs is the collected list when nonempty and absent otherwise. -/
def annotateFlare (cmes : List EnhancedCME) (flare : SolarFlare) : SolarFlare :=
  let infos := buildCMEInfos cmes (flare.linkedEvents.getD [])
  { flare with associatedCMEs := if infos.isEmpty then none else some infos }

/-- Translation of the for/break loop of loadIPSAndCorrelateData: the first
linked identifier the lookup resolves, if any. -/
def findFirstLinked (cmes : List EnhancedCME) : List LinkedEventRef → Option EnhancedCME
  | [] => none
  | le :: rest =>
    match cmeLookup cmes le.activityID with
    | some c => some c
    | none => findFirstLinked cmes rest

/-- Models linkedCME.displayAnalysisSpeed || undefined: the number 0 is falsy
and degrades to undefined. -/
def jsSpeedOrUndefined : Option Int → Option Int
  | none => none
  | some v => if v = 0 then none else some v

/-- Translation of the per-shock body of loadIPSAndCorrelateData. -/
def annotateShock (cmes : List EnhancedCME) (ips : InterplanetaryShock) :
    InterplanetaryShock :=
  match findFirstLinked cmes (ips.linkedEvents.getD []) with
  | some c =>
    { ips with
      associatedCMESpeed := jsSpeedOrUndefined c.displayAnalysisSpeed
      associatedCMEStartTime := some c.startTime
      associatedCMELink := some c.link
      associatedCMEActivityID := some c.activityID }
  | none =>
    { ips with
      associatedCMESpeed := none
      associatedCMEStartTime := none
      associatedCMELink := none
      associatedCMEActivityID := none }

/-- Arrival-time sort key of the earth-directed comparator, modelling
a.displayEnlilArrivalTime ? new Date(a.displayEnlilArrivalTime).getTime()
: Infinity, with none standing for Infinity. -/
def arrivalKey (c : EnhancedCME) : Option Int :=
  match c.displayEnlilArrivalTime with
  | some s => if s.isEmpty then none else some (getTime s)
  | none => none

/-- Sign of the final startTime tie-break of the comparator,
new Date(b.startTime).getTime() - new Date(a.startTime).getTime(). -/
def startCmp (a b : EnhancedCME) : Int :=
  getTime b.startTime - getTime a.startTime

/-- Translation of the earth-directed sort comparator.  Only the sign of the
result is observable by the sort; the infinite arrival-time differences are
rendered as 1 and -1. -/
def cmpEarthDirected (a b : EnhancedCME) : Int :=
  if a.earthImpactScore ≠ b.earthImpactScore then
    jsSubSign (scoreOrInf a.earthImpactScore) (scoreOrInf b.earthImpactScore)
  else if a.earthImpactScore = JsNum.fin 1 ∧ b.earthImpactScore = JsNum.fin 1 then
    match arrivalKey a, arrivalKey b with
    | some ta, some tb => if ta ≠ tb then ta - tb else startCmp a b
    | some _, none => -1
    | none, some _ => 1
    | none, none => startCmp a b
  else startCmp a b

/-- Nonpositive comparator result, the order the sort establishes. -/
def earthLe (a b : EnhancedCME) : Bool :=
  decide (cmpEarthDirected a b ≤ 0)

/-- Stable insertion of one element in front of the first element it compares
at-or-before. -/
def insertBy {α : Type} (le : α → α → Bool) (x : α) : List α → List α
  | [] => [x]
  | y :: ys => if le x y then x :: y :: ys else y :: insertBy le x ys

/-- Stable sort used to model Array.prototype.sort, which ECMAScript requires
to be stable; for a consistent comparator the stable order is unique, so any
stable sort is a faithful model. -/
def jsStableSort {α : Type} (le : α → α → Bool) : List α → List α
  | [] => []
  | x :: xs => insertBy le x (jsStableSort le xs)

/-- Translation of the earthDirectedCMEs memo: filter on
(cme.earthImpactScore || Infinity) <= 3 and sort with the comparator. -/
def earthDirectedCMEs (l : List EnhancedCME) : List EnhancedCME :=
  jsStableSort earthLe
    (l.filter fun c => JsNum.leB (scoreOrInf c.earthImpactScore) (JsNum.fin 3))

/-- Translation of the otherCMEs memo: the processed records whose activityID
does not occur in the earth-directed partition. -/
def otherCMEs (l : List EnhancedCME) : List EnhancedCME :=
  l.filter fun c =>
    !((earthDirectedCMEs l).any fun ed => ed.activityID == c.activityID)

/-- Score invariant of the data model: earthImpactScore is 1, 2, 3, 4 or
Infinity. -/
def validScore (s : JsNum) : Prop :=
  s = JsNum.fin 1 ∨ s = JsNum.fin 2 ∨ s = JsNum.fin 3 ∨ s = JsNum.fin 4 ∨ s = JsNum.inf

instance (s : JsNum) : Decidable (validScore s) := by
  unfold validScore
  infer_instance

/-- Strict order on optional arrival keys with absent keys sorting last. -/
def arrivalLt : Option Int → Option Int → Prop
  | some x, some y => x < y
  | some _, none => True
  | none, _ => False

/-- Order the ranking contract states for the earth-directed partition:
ascending score; within score 1, ascending arrival time with absent arrival
times last; all remaining ties by descending startTime. -/
def claimOrder (a b : EnhancedCME) : Prop :=
  JsNum.ltB a.earthImpactScore b.earthImpactScore = true
    ∨ (a.earthImpactScore = b.earthImpactScore ∧ a.earthImpactScore = JsNum.fin 1
        ∧ arrivalLt (arrivalKey a) (arrivalKey b))
    ∨ (a.earthImpactScore = b.earthImpactScore
        ∧ (a.earthImpactScore = JsNum.fin 1 → arrivalKey a = arrivalKey b)
        ∧ getTime b.startTime ≤ getTime a.startTime)

/-- Modelled from the spec: the tier of the first matching rule of the
ordered decision list of section 4.1 step 5, with rule 1 reading non-null
arrival time literally and rule 3 requiring, as written there, that some
simulation of the relevant analysis have a nonempty impact list. -/
def specTier (cme : CME) : JsNum :=
  match relevantAnalysis cme with
  | none => JsNum.inf
  | some ra =>
    match firstEarthEnlil ra with
    | some fe =>
      if fe.estimatedShockArrivalTime.isSome then JsNum.fin 1 else JsNum.fin 2
    | none =>
      if noteMentionsEarth ra.note
          && (ra.enlilList.getD []).any (fun e => !(e.impactList.getD []).isEmpty) then
        JsNum.fin 3
      else if !(ra.enlilList.getD []).isEmpty then JsNum.fin 4
      else JsNum.inf

/-- Decision-list tier as the code implements it: rule 1 requires a truthy
(non-null, nonempty) arrival time on the primary Earth simulation, and rule 3
requires only that the note of the relevant analysis mention earth. -/
def codeTier (cme : CME) : JsNum :=
  match relevantAnalysis cme with
  | none => JsNum.inf
  | some ra =>
    match firstEarthEnlil ra with
    | some fe =>
      if jsTruthyStr fe.estimatedShockArrivalTime then JsNum.fin 1 else JsNum.fin 2
    | none =>
      if noteMentionsEarth ra.note then JsNum.fin 3
      else if !(ra.enlilList.getD []).isEmpty then JsNum.fin 4
      else JsNum.inf

/-- Predicate of claim C2: some Earth-flagged simulation of some analysis
bears a non-null arrival time. -/
def hasEarthSimWithArrival (cme : CME) : Bool :=
  (cme.cmeAnalyses.getD []).any fun a =>
    (a.enlilList.getD []).any fun e =>
      isEarthSim e && e.estimatedShockArrivalTime.isSome

/-- ENLIL simulation of the section 8 scenario A: Earth-geomagnetic with a
concrete arrival time and no explicit impact list. -/
def simA : EnlilSimulation :=
  { estimatedShockArrivalTime := some ("2024-03-01T12:00Z")
    estimatedDuration := some 8
    isEarthGB := some true
    impactList := none }

/-- Most-accurate analysis of scenario A carrying simA. -/
def anaA : CMEAnalysis :=
  { speed := 900, halfAngle := 40, type := ("S-type"), isMostAccurate := true
    note := ("fast halo event"), enlilList := some [simA] }

/-- CME of scenario A. -/
def cmeA : CME :=
  { activityID := ("2024-03-01T01:00:00-CME-001")
    startTime := ("2024-03-01T01:00Z")
    sourceLocation := ("N10W20")
    note := ("halo")
    link := ("linkA")
    linkedEvents := none
    cmeAnalyses := some [anaA] }

/-- Earth-geomagnetic simulation whose arrival time is the empty string:
non-null, but falsy for the JavaScript truthiness test of the score-1 rule. -/
def simEmptyArr : EnlilSimulation :=
  { estimatedShockArrivalTime := some ("")
    estimatedDuration := some 10
    isEarthGB := some true
    impactList := none }

/-- Analysis carrying only simEmptyArr. -/
def anaEmptyArr : CMEAnalysis :=
  { speed := 700, halfAngle := 30, type := ("C-type"), isMostAccurate := true
    note := ("event"), enlilList := some [simEmptyArr] }

/-- CME whose primary Earth simulation has the empty-string arrival time. -/
def cmeEmptyArr : CME :=
  { activityID := ("2024-03-02T02:00:00-CME-001")
    startTime := ("2024-03-02T02:00Z")
    sourceLocation := ("S05E10")
    note := ("cme")
    link := ("linkE")
    linkedEvents := none
    cmeAnalyses := some [anaEmptyArr] }

/-- Earth-flagged simulation with no arrival time. -/
def simNoArr : EnlilSimulation :=
  { estimatedShockArrivalTime := none
    estimatedDuration := none
    isEarthGB := some true
    impactList := none }

/-- Earth-flagged simulation with a concrete arrival time. -/
def simWithArr : EnlilSimulation :=
  { estimatedShockArrivalTime := some ("2024-03-04T00:00Z")
    estimatedDuration := some 6
    isEarthGB := some true
    impactList := none }

/-- Analysis whose ENLIL list holds simNoArr before simWithArr, so the first
Earth-flagged simulation lacks an arrival time while a later one has one. -/
def anaTwoSims : CMEAnalysis :=
  { speed := 800, halfAngle := 35, type := ("C-type"), isMostAccurate := true
    note := ("event"), enlilList := some [simNoArr, simWithArr] }

/-- CME with an Earth-flagged simulation bearing an arrival time that is not
the primary Earth simulation. -/
def cmeTwoSims : CME :=
  { activityID := ("2024-03-03T03:00:00-CME-001")
    startTime := ("2024-03-03T03:00Z")
    sourceLocation := ("N02W30")
    note := ("cme")
    link := ("linkT")
    linkedEvents := none
    cmeAnalyses := some [anaTwoSims] }

/-- Analysis whose note mentions Earth but which has no simulations at all. -/
def anaNoteOnly : CMEAnalysis :=
  { speed := 500, halfAngle := 20, type := ("S-type"), isMostAccurate := true
    note := ("possible Earth directed component"), enlilList := none }

/-- CME whose relevant analysis mentions Earth in its note and has no
simulations. -/
def cmeNoteOnly : CME :=
  { activityID := ("2024-03-05T05:00:00-CME-001")
    startTime := ("2024-03-05T05:00Z")
    sourceLocation := ("N00W00")
    note := ("cme")
    link := ("linkN")
    linkedEvents := none
    cmeAnalyses := some [anaNoteOnly] }

/-- CME with no analyses field at all, the section 8 scenario B. -/
def cmeNoAnalyses : CME :=
  { activityID := ("2024-03-06T06:00:00-CME-001")
    startTime := ("2024-03-06T06:00Z")
    sourceLocation := ("")
    note := ("quiet")
    link := ("linkB")
    linkedEvents := none
    cmeAnalyses := none }

/-- Analysis flagged most accurate with no simulations and a note that does
not mention earth. -/
def anaFlagOnly : CMEAnalysis :=
  { speed := 400, halfAngle := 15, type := ("S-type"), isMostAccurate := true
    note := ("slow event"), enlilList := none }

/-- CME whose only relevance signal is the most-accurate flag. -/
def cmeFlagOnly : CME :=
  { activityID := ("2024-03-07T07:00:00-CME-001")
    startTime := ("2024-03-07T07:00Z")
    sourceLocation := ("S10E20")
    note := ("slow"), link := ("linkF")
    linkedEvents := none
    cmeAnalyses := some [anaFlagOnly] }

/-- Enhanced record literal used by the partition examples. -/
def mkEnhanced (id start : String) (score : JsNum) (arr : Option String) :
    EnhancedCME :=
  { activityID := id
    startTime := start
    sourceLocation := ("")
    note := ("")
    link := ("")
    linkedEvents := none
    cmeAnalyses := none
    earthImpactScore := score
    displayAnalysisSpeed := none
    displayAnalysisHalfAngle := none
    displayAnalysisType := none
    displayAnalysisNote := none
    displayEnlilArrivalTime := arr
    displayEnlilDuration := none
    displayEnlilImpactLocations := none
    isPotentiallyEarthDirected := true }

/-- Score-1 record with the later arrival time of the tie-break example. -/
def edLate : EnhancedCME :=
  mkEnhanced ("CME-L") ("2024-01-01T00:00Z") (JsNum.fin 1) (some ("2024-01-01T10:00Z"))

/-- Score-1 record with the earlier arrival time of the tie-break example. -/
def edEarly : EnhancedCME :=
  mkEnhanced ("CME-E") ("2024-01-01T01:00Z") (JsNum.fin 1) (some ("2024-01-01T08:00Z"))

/-- Score-4 record of the partition example. -/
def edOther : EnhancedCME :=
  mkEnhanced ("CME-O") ("2024-01-02T00:00Z") (JsNum.fin 4) none

/-- Analysis whose recorded speed is 0, a falsy JavaScript number. -/
def anaZeroSpeed : CMEAnalysis :=
  { speed := 0, halfAngle := 10, type := ("S-type"), isMostAccurate := true
    note := ("stationary"), enlilList := none }

/-- CME whose relevant analysis has speed 0. -/
def cmeZeroSpeed : CME :=
  { activityID := ("2024-03-08T08:00:00-CME-001")
    startTime := ("2024-03-08T08:00Z")
    sourceLocation := ("N01E01")
    note := ("cme"), link := ("linkZ")
    linkedEvents := none
    cmeAnalyses := some [anaZeroSpeed] }

/-- Shock linked to the zero-speed CME. -/
def shockZero : InterplanetaryShock :=
  { ipsID := ("2024-03-09T09:00:00-IPS-001")
    eventTime := ("2024-03-09T09:00Z")
    locatioN := ("Earth"), link := ("linkS")
    linkedEvents := some [{ activityID := ("2024-03-08T08:00:00-CME-001") }]
    associatedCMESpeed := none
    associatedCMEStartTime := none
    associatedCMELink := none
    associatedCMEActivityID := none }

/-- Shock whose linked events name an unresolvable identifier first, then the
scenario A CME, then the zero-speed CME. -/
def shockMulti : InterplanetaryShock :=
  { ipsID := ("2024-03-10T10:00:00-IPS-001")
    eventTime := ("2024-03-10T10:00Z")
    locatioN := ("DSCOVR"), link := ("linkM")
    linkedEvents := some
      [{ activityID := ("2023-01-01T00:00:00-CME-999") },
       { activityID := ("2024-03-01T01:00:00-CME-001") },
       { activityID := ("2024-03-08T08:00:00-CME-001") }]
    associatedCMESpeed := none
    associatedCMEStartTime := none
    associatedCMELink := none
    associatedCMEActivityID := none }

theorem scoreOrInf_eq_of_ne_zero {s : JsNum} (h : s ≠ JsNum.fin 0) :
    scoreOrInf s = s := by
  cases s with
  | inf => rfl
  | fin n =>
    cases n with
    | zero => exact absurd rfl h
    | succ m => rfl

theorem validScore_ne_zero {s : JsNum} (h : validScore s) : s ≠ JsNum.fin 0 := by
  rcases h with h | h | h | h | h <;> simp [h]

theorem mem_insertBy {α : Type} (le : α → α → Bool) (x a : α) (l : List α) :
    a ∈ insertBy le x l ↔ a = x ∨ a ∈ l := by
  induction l with
  | nil => simp [insertBy]
  | cons y ys ih =>
    cases h : le x y with
    | true => simp [insertBy, h]
    | false => simp [insertBy, h, ih]; tauto

theorem insertBy_perm {α : Type} (le : α → α → Bool) (x : α) (l : List α) :
    List.Perm (insertBy le x l) (x :: l) := by
  induction l with
  | nil => simp [insertBy]
  | cons y ys ih =>
    cases h : le x y with
    | true => simp [insertBy, h]
    | false =>
      simp only [insertBy, h, Bool.false_eq_true, if_false]
      exact (ih.cons y).trans (List.Perm.swap x y ys)

theorem jsStableSort_perm {α : Type} (le : α → α → Bool) (l : List α) :
    List.Perm (jsStableSort le l) l := by
  induction l with
  | nil => simp [jsStableSort]
  | cons x xs ih =>
    exact (insertBy_perm le x (jsStableSort le xs)).trans (ih.cons x)

theorem mem_jsStableSort {α : Type} (le : α → α → Bool) (a : α) (l : List α) :
    a ∈ jsStableSort le l ↔ a ∈ l :=
  (jsStableSort_perm le l).mem_iff

theorem pairwise_insertBy {α : Type} {le : α → α → Bool} {P : α → Prop}
    (hT : ∀ a b c, P a → P b → P c → le a b = true → le b c = true → le a c = true)
    (hTot : ∀ a b, P a → P b → le a b = true ∨ le b a = true)
    {x : α} (hx : P x) :
    ∀ {l : List α}, (∀ y ∈ l, P y) → l.Pairwise (fun a b => le a b = true) →
      (insertBy le x l).Pairwise (fun a b => le a b = true) := by
  intro l
  induction l with
  | nil => intro _ _; simp [insertBy]
  | cons y ys ih =>
    intro hP hPair
    have hPy : P y := hP y (List.mem_cons_self y ys)
    have hPys : ∀ z ∈ ys, P z := fun z hz => hP z (List.mem_cons_of_mem y hz)
    rcases List.pairwise_cons.mp hPair with ⟨hyAll, hys⟩
    cases h : le x y with
    | true =>
      simp only [insertBy, h, if_true]
      refine List.pairwise_cons.mpr ⟨?_, hPair⟩
      intro z hz
      rcases List.mem_cons.mp hz with rfl | hz2
      · exact h
      · exact hT x y z hx hPy (hPys z hz2) h (hyAll z hz2)
    | false =>
      have hyx : le y x = true := by
        rcases hTot x y hx hPy with h2 | h2
        · rw [h] at h2; cases h2
        · exact h2
      simp only [insertBy, h, Bool.false_eq_true, if_false]
      refine List.pairwise_cons.mpr ⟨?_, ih hPys hys⟩
      intro z hz
      rcases (mem_insertBy le x z ys).mp hz with rfl | hz2
      · exact hyx
      · exact hyAll z hz2

theorem pairwise_jsStableSort {α : Type} {le : α → α → Bool} {P : α → Prop}
    (hT : ∀ a b c, P a → P b → P c → le a b = true → le b c = true → le a c = true)
    (hTot : ∀ a b, P a → P b → le a b = true ∨ le b a = true) :
    ∀ {l : List α}, (∀ y ∈ l, P y) →
      (jsStableSort le l).Pairwise (fun a b => le a b = true) := by
  intro l
  induction l with
  | nil => intro _; simp [jsStableSort]
  | cons x xs ih =>
    intro hP
    have hPx : P x := hP x (List.mem_cons_self x xs)
    have hPxs : ∀ z ∈ xs, P z := fun z hz => hP z (List.mem_cons_of_mem x hz)
    have hPsort : ∀ z ∈ jsStableSort le xs, P z := fun z hz =>
      hPxs z ((mem_jsStableSort le z xs).mp hz)
    exact pairwise_insertBy hT hTot hPx hPsort (ih hPxs)

theorem jsNum_ltB_irrefl (s : JsNum) : JsNum.ltB s s = false := by
  cases s <;> simp [JsNum.ltB]

theorem jsNum_ltB_trans {a b c : JsNum} (h1 : JsNum.ltB a b = true)
    (h2 : JsNum.ltB b c = true) : JsNum.ltB a c = true := by
  cases a <;> cases b <;> cases c <;> simp_all [JsNum.ltB]
  omega

theorem jsNum_trichotomy (a b : JsNum) :
    a = b ∨ JsNum.ltB a b = true ∨ JsNum.ltB b a = true := by
  cases a <;> cases b <;> simp [JsNum.ltB]
  omega

theorem arrivalLt_trans {x y z : Option Int} (h1 : arrivalLt x y)
    (h2 : arrivalLt y z) : arrivalLt x z := by
  cases x <;> cases y <;> cases z <;> simp_all [arrivalLt]
  omega

theorem arrivalLt_trichotomy (x y : Option Int) :
    x = y ∨ arrivalLt x y ∨ arrivalLt y x := by
  cases x <;> cases y <;> simp [arrivalLt]
  omega

theorem jsSubSign_le_zero {a b : JsNum} (hne : a ≠ b) :
    jsSubSign a b ≤ 0 ↔ JsNum.ltB a b = true := by
  cases a <;> cases b <;> simp_all [jsSubSign, JsNum.ltB]
  omega

theorem earthLe_iff_claimOrder {a b : EnhancedCME}
    (ha : validScore a.earthImpactScore) (hb : validScore b.earthImpactScore) :
    earthLe a b = true ↔ claimOrder a b := by
  have ha0 := scoreOrInf_eq_of_ne_zero (validScore_ne_zero ha)
  have hb0 := scoreOrInf_eq_of_ne_zero (validScore_ne_zero hb)
  rw [earthLe, decide_eq_true_iff]
  by_cases hs : a.earthImpactScore = b.earthImpactScore
  · rw [cmpEarthDirected, if_neg (by simp [hs])]
    by_cases h1 : a.earthImpactScore = JsNum.fin 1
    · have hb1 : b.earthImpactScore = JsNum.fin 1 := hs ▸ h1
      rw [if_pos ⟨h1, hb1⟩]
      rcases hka : arrivalKey a with _ | ta <;> rcases hkb : arrivalKey b with _ | tb
      · simp [claimOrder, startCmp, arrivalLt, hs, hb1, hka, hkb, jsNum_ltB_irrefl]
      · simp [claimOrder, startCmp, arrivalLt, hs, hb1, hka, hkb, jsNum_ltB_irrefl]
      · simp [claimOrder, startCmp, arrivalLt, hs, h1, hb1, hka, hkb, jsNum_ltB_irrefl]
      · by_cases hta : ta = tb
        · simp [claimOrder, startCmp, arrivalLt, hs, hb1, hka, hkb, hta,
            jsNum_ltB_irrefl]
        · simp [claimOrder, startCmp, arrivalLt, hs, hb1, hka, hkb, hta,
            jsNum_ltB_irrefl]
          omega
    · have hb1 : b.earthImpactScore ≠ JsNum.fin 1 := fun hh => h1 (hs.trans hh)
      rw [if_neg (fun hp => h1 hp.1)]
      simp [claimOrder, startCmp, hs, h1, hb1, jsNum_ltB_irrefl]
  · rw [cmpEarthDirected, if_pos hs, ha0, hb0, jsSubSign_le_zero hs]
    simp [claimOrder, hs]

theorem claimOrder_trans {a b c : EnhancedCME} (h1 : claimOrder a b)
    (h2 : claimOrder b c) : claimOrder a c := by
  rcases h1 with h1 | ⟨e1, s1, l1⟩ | ⟨e1, i1, t1⟩ <;>
    rcases h2 with h2 | ⟨e2, s2, l2⟩ | ⟨e2, i2, t2⟩
  · exact Or.inl (jsNum_ltB_trans h1 h2)
  · exact Or.inl (by rw [← e2]; exact h1)
  · exact Or.inl (by rw [← e2]; exact h1)
  · exact Or.inl (by rw [e1]; exact h2)
  · exact Or.inr (Or.inl ⟨e1.trans e2, s1, arrivalLt_trans l1 l2⟩)
  · refine Or.inr (Or.inl ⟨e1.trans e2, s1, ?_⟩)
    have hb1 : b.earthImpactScore = JsNum.fin 1 := by rw [← e1]; exact s1
    rw [← i2 hb1]; exact l1
  · exact Or.inl (by rw [e1]; exact h2)
  · refine Or.inr (Or.inl ⟨e1.trans e2, by rw [e1]; exact s2, ?_⟩)
    have ha1 : a.earthImpactScore = JsNum.fin 1 := by rw [e1]; exact s2
    rw [i1 ha1]; exact l2
  · refine Or.inr (Or.inr ⟨e1.trans e2, ?_, le_trans t2 t1⟩)
    intro ha1
    have hb1 : b.earthImpactScore = JsNum.fin 1 := by rw [← e1]; exact ha1
    rw [i1 ha1]; exact i2 hb1

theorem claimOrder_total (a b : EnhancedCME) : claimOrder a b ∨ claimOrder b a := by
  rcases jsNum_trichotomy a.earthImpactScore b.earthImpactScore with hs | hlt | hgt
  · by_cases h1 : a.earthImpactScore = JsNum.fin 1
    · have hb1 : b.earthImpactScore = JsNum.fin 1 := hs ▸ h1
      rcases arrivalLt_trichotomy (arrivalKey a) (arrivalKey b) with hk | hk | hk
      · rcases le_total (getTime b.startTime) (getTime a.startTime) with ht | ht
        · exact Or.inl (Or.inr (Or.inr ⟨hs, fun _ => hk, ht⟩))
        · exact Or.inr (Or.inr (Or.inr ⟨hs.symm, fun _ => hk.symm, ht⟩))
      · exact Or.inl (Or.inr (Or.inl ⟨hs, h1, hk⟩))
      · exact Or.inr (Or.inr (Or.inl ⟨hs.symm, hb1, hk⟩))
    · have hb1 : b.earthImpactScore ≠ JsNum.fin 1 := fun hh => h1 (hs.trans hh)
      rcases le_total (getTime b.startTime) (getTime a.startTime) with ht | ht
      · exact Or.inl (Or.inr (Or.inr ⟨hs, fun hh => absurd hh h1, ht⟩))
      · exact Or.inr (Or.inr (Or.inr ⟨hs.symm, fun hh => absurd hh hb1, ht⟩))
  · exact Or.inl (Or.inl hlt)
  · exact Or.inr (Or.inl hgt)

theorem enhance_flag (cme : CME) :
    (enhanceCMEData cme).isPotentiallyEarthDirected = isPotentiallyEarthRelevant cme := by
  unfold enhanceCMEData
  cases hra : relevantAnalysis cme with
  | none => rfl
  | some ra =>
    cases hfe : firstEarthEnlil ra with
    | some fe =>
      cases ht : jsTruthyStr fe.estimatedShockArrivalTime <;>
        simp [hfe, scoreEarthSim, ht, baseEnhanced]
    | none =>
      cases hn : noteMentionsEarth ra.note with
      | true =>
        unfold scoreNoteEarth
        cases hfind : (ra.enlilList.getD []).find?
            (fun e => !(e.impactList.getD []).isEmpty) <;>
          simp [hfe, hn, hfind, baseEnhanced, JsNum.ltB]
      | false =>
        cases he : (ra.enlilList.getD []).isEmpty <;>
          simp [hfe, hn, he, baseEnhanced, JsNum.ltB]

theorem enhance_score_eq_codeTier (cme : CME) :
    (enhanceCMEData cme).earthImpactScore = codeTier cme := by
  unfold enhanceCMEData codeTier
  cases hra : relevantAnalysis cme with
  | none => rfl
  | some ra =>
    cases hfe : firstEarthEnlil ra with
    | some fe =>
      cases ht : jsTruthyStr fe.estimatedShockArrivalTime <;>
        simp [hfe, scoreEarthSim, ht, baseEnhanced]
    | none =>
      cases hn : noteMentionsEarth ra.note with
      | true =>
        unfold scoreNoteEarth
        cases hfind : (ra.enlilList.getD []).find?
            (fun e => !(e.impactList.getD []).isEmpty) <;>
          simp [hfe, hn, hfind, baseEnhanced, JsNum.ltB]
      | false =>
        cases he : (ra.enlilList.getD []).isEmpty <;>
          simp [hfe, hn, he, baseEnhanced, JsNum.ltB]

theorem enhance_earthSim_fields (cme : CME) (ra : CMEAnalysis)
    (fe : EnlilSimulation) (hra : relevantAnalysis cme = some ra)
    (hfe : firstEarthEnlil ra = some fe) :
    (enhanceCMEData cme).displayEnlilArrivalTime = fe.estimatedShockArrivalTime
      ∧ (enhanceCMEData cme).displayEnlilDuration = fe.estimatedDuration
      ∧ (enhanceCMEData cme).displayEnlilImpactLocations = some (jsImpactLocations fe)
      ∧ (jsTruthyStr fe.estimatedShockArrivalTime = true →
          (enhanceCMEData cme).earthImpactScore = JsNum.fin 1)
      ∧ (jsTruthyStr fe.estimatedShockArrivalTime = false →
          (enhanceCMEData cme).earthImpactScore = JsNum.fin 2) := by
  unfold enhanceCMEData
  rw [hra]
  cases ht : jsTruthyStr fe.estimatedShockArrivalTime <;>
    simp [hfe, scoreEarthSim, ht, baseEnhanced]

theorem jsTruthyStr_some_of_ne {t : String} (h : t ≠ ("")) :
    jsTruthyStr (some t) = true := by
  unfold jsTruthyStr
  cases he : t.isEmpty with
  | false => simp [he]
  | true => exact absurd ((String.isEmpty_iff t).mp he) h

theorem relevantAnalysis_mem {cme : CME} {ra : CMEAnalysis}
    (h : relevantAnalysis cme = some ra) : ra ∈ cme.cmeAnalyses.getD [] := by
  unfold relevantAnalysis at h
  cases hf : (cme.cmeAnalyses.getD []).find? (fun a => a.isMostAccurate) with
  | some a =>
    rw [hf] at h
    cases h
    exact List.mem_of_find?_eq_some hf
  | none =>
    rw [hf] at h
    rcases List.head?_eq_some_iff.mp h with ⟨ys, hys⟩
    rw [hys]
    exact List.mem_cons_self ra ys

theorem relevantAnalysis_none_of_empty {cme : CME}
    (h : cme.cmeAnalyses.getD [] = []) : relevantAnalysis cme = none := by
  unfold relevantAnalysis
  rw [h]
  rfl

theorem noteMentionsEarth_iff (s : String) :
    noteMentionsEarth s = true ↔ strIncludes (jsToLower s) (("earth")) = true := by
  unfold noteMentionsEarth
  cases he : s.isEmpty with
  | false => simp
  | true =>
    have hs : s = ("") := (String.isEmpty_iff s).mp he
    subst hs
    decide

theorem jsNum_leB_refl (s : JsNum) : JsNum.leB s s = true := by
  cases s <;> simp [JsNum.leB]

theorem signal_iff (a : CMEAnalysis) :
    (a.isMostAccurate || !(a.enlilList.getD []).isEmpty || noteMentionsEarth a.note) = true
      ↔ (a.isMostAccurate = true ∨ a.enlilList.getD [] ≠ []
          ∨ strIncludes (jsToLower a.note) (("earth")) = true) := by
  simp [noteMentionsEarth_iff]
  tauto

/-- C5: the enrichment sets isPotentiallyEarthDirected exactly when the CME
has at least one analysis that is flagged most accurate, or carries at least
one ENLIL simulation, or whose note text contains the case-insensitive
substring earth.  A CME with zero analyses never gets the flag: the right
side is then vacuously false. -/
theorem enrich_flag_iff (cme : CME) :
    (enhanceCMEData cme).isPotentiallyEarthDirected = true ↔
      ∃ a ∈ cme.cmeAnalyses.getD [],
        (a.isMostAccurate = true ∨ a.enlilList.getD [] ≠ []
          ∨ strIncludes (jsToLower a.note) (("earth")) = true) := by
  rw [enhance_flag]
  unfold isPotentiallyEarthRelevant
  cases h : cme.cmeAnalyses with
  | none => simp [h]
  | some as =>
    simp only [h, Option.getD_some]
    rw [List.any_eq_true]
    constructor
    · rintro ⟨a, ha, hsig⟩
      exact ⟨a, ha, (signal_iff a).mp hsig⟩
    · rintro ⟨a, ha, hsig⟩
      exact ⟨a, ha, (signal_iff a).mpr hsig⟩

/-- C6: the enrichment is a total function of the record, and on a CME with
no analyses (an absent or empty array) it returns score Infinity, every
display field absent, and the relevance flag false. -/
theorem enrich_no_analyses (cme : CME) (h : cme.cmeAnalyses.getD [] = []) :
    (enhanceCMEData cme).earthImpactScore = JsNum.inf
      ∧ (enhanceCMEData cme).displayAnalysisSpeed = none
      ∧ (enhanceCMEData cme).displayAnalysisHalfAngle = none
      ∧ (enhanceCMEData cme).displayAnalysisType = none
      ∧ (enhanceCMEData cme).displayAnalysisNote = none
      ∧ (enhanceCMEData cme).displayEnlilArrivalTime = none
      ∧ (enhanceCMEData cme).displayEnlilDuration = none
      ∧ (enhanceCMEData cme).displayEnlilImpactLocations = none
      ∧ (enhanceCMEData cme).isPotentiallyEarthDirected = false := by
  have hra := relevantAnalysis_none_of_empty h
  have hflag : isPotentiallyEarthRelevant cme = false := by
    unfold isPotentiallyEarthRelevant
    cases hc : cme.cmeAnalyses with
    | none => rfl
    | some as =>
      rw [hc] at h
      simp only [Option.getD_some] at h
      subst h
      rfl
  unfold enhanceCMEData
  rw [hra]
  simp [baseEnhanced, hflag]

/-- C6 witness, the section 8 scenario B record. -/
theorem enrich_no_analyses_witness :
    (enhanceCMEData cmeNoAnalyses).earthImpactScore = JsNum.inf
      ∧ (enhanceCMEData cmeNoAnalyses).displayAnalysisSpeed = none
      ∧ (enhanceCMEData cmeNoAnalyses).displayAnalysisHalfAngle = none
      ∧ (enhanceCMEData cmeNoAnalyses).displayAnalysisType = none
      ∧ (enhanceCMEData cmeNoAnalyses).displayAnalysisNote = none
      ∧ (enhanceCMEData cmeNoAnalyses).displayEnlilArrivalTime = none
      ∧ (enhanceCMEData cmeNoAnalyses).displayEnlilDuration = none
      ∧ (enhanceCMEData cmeNoAnalyses).displayEnlilImpactLocations = none
      ∧ (enhanceCMEData cmeNoAnalyses).isPotentiallyEarthDirected = false :=
  enrich_no_analyses cmeNoAnalyses (by decide)

/-- C10: whenever the enrichment assigns a finite score the relevance flag is
set.  The witness also records that the converse fails on a record whose only
signal is the most-accurate flag. -/
theorem finite_score_implies_flag (cme : CME)
    (h : (enhanceCMEData cme).earthImpactScore ≠ JsNum.inf) :
    (enhanceCMEData cme).isPotentiallyEarthDirected = true := by
  rw [enhance_flag]
  rw [enhance_score_eq_codeTier] at h
  cases hra : relevantAnalysis cme with
  | none => simp only [codeTier, hra] at h; exact absurd rfl h
  | some ra =>
    simp only [codeTier, hra] at h
    have hmem := relevantAnalysis_mem hra
    have hsome : ∃ as, cme.cmeAnalyses = some as := by
      cases hc : cme.cmeAnalyses with
      | none => rw [hc] at hmem; simp at hmem
      | some as => exact ⟨as, rfl⟩
    rcases hsome with ⟨as, hc⟩
    rw [hc] at hmem
    simp only [Option.getD_some] at hmem
    unfold isPotentiallyEarthRelevant
    rw [hc, List.any_eq_true]
    refine ⟨ra, hmem, ?_⟩
    cases hfe : firstEarthEnlil ra with
    | some fe =>
      have hfm : fe ∈ (ra.enlilList.getD []).filter isEarthSim := by
        unfold firstEarthEnlil at hfe
        rcases List.head?_eq_some_iff.mp hfe with ⟨ys, hys⟩
        rw [hys]
        exact List.mem_cons_self _ _
      have hmem2 : fe ∈ ra.enlilList.getD [] := (List.mem_filter.mp hfm).1
      have hne : (ra.enlilList.getD []).isEmpty = false := by
        cases hl : ra.enlilList.getD [] with
        | nil => rw [hl] at hmem2; simp at hmem2
        | cons x xs => rfl
      simp [hne]
    | none =>
      simp only [hfe] at h
      by_cases hn : noteMentionsEarth ra.note = true
      · simp [hn]
      · rw [if_neg hn] at h
        cases hemp : (ra.enlilList.getD []).isEmpty with
        | true => rw [hemp] at h; simp at h
        | false => simp [hemp]

/-- C10 witness: a score-1 record has the flag, and the converse fails on
cmeFlagOnly, whose flag is set while its score stays Infinity. -/
theorem finite_score_implies_flag_witness :
    ((enhanceCMEData cmeA).earthImpactScore ≠ JsNum.inf
        ∧ (enhanceCMEData cmeA).isPotentiallyEarthDirected = true)
      ∧ ((enhanceCMEData cmeFlagOnly).isPotentiallyEarthDirected = true
        ∧ (enhanceCMEData cmeFlagOnly).earthImpactScore = JsNum.inf) :=
  ⟨⟨by decide, finite_score_implies_flag cmeA (by decide)⟩, by decide⟩

/-- C1 (amended): when the relevant analysis has a primary Earth simulation
whose estimatedShockArrivalTime is non-null and nonempty (JavaScript-truthy),
the enrichment scores 1, copies the arrival time and duration of that
simulation into the display fields, copies its impact-location list when one
is present, and uses the Earth Geospace singleton when the simulation is
Earth-geomagnetic with no explicit impact list. -/
theorem enrich_primary_truthy_arrival (cme : CME) (ra : CMEAnalysis)
    (fe : EnlilSimulation) (t : String)
    (hra : relevantAnalysis cme = some ra)
    (hfe : firstEarthEnlil ra = some fe)
    (ht : fe.estimatedShockArrivalTime = some t) (hne : t ≠ ("")) :
    (enhanceCMEData cme).earthImpactScore = JsNum.fin 1
      ∧ (enhanceCMEData cme).displayEnlilArrivalTime = fe.estimatedShockArrivalTime
      ∧ (enhanceCMEData cme).displayEnlilDuration = fe.estimatedDuration
      ∧ (∀ il, fe.impactList = some il →
          (enhanceCMEData cme).displayEnlilImpactLocations
            = some (il.map (fun imp => imp.location)))
      ∧ (fe.impactList = none → fe.isEarthGB = some true →
          (enhanceCMEData cme).displayEnlilImpactLocations
            = some (["Earth Geospace"])) := by
  have hfields := enhance_earthSim_fields cme ra fe hra hfe
  have htruthy : jsTruthyStr fe.estimatedShockArrivalTime = true := by
    rw [ht]
    exact jsTruthyStr_some_of_ne hne
  refine ⟨hfields.2.2.2.1 htruthy, hfields.1, hfields.2.1, ?_, ?_⟩
  · intro il hil
    rw [hfields.2.2.1]
    simp [jsImpactLocations, hil]
  · intro hnone hgb
    rw [hfields.2.2.1]
    simp [jsImpactLocations, hnone, hgb]

/-- C1 counterexample: the arrival time of the primary Earth simulation of
cmeEmptyArr is the non-null empty string, yet the enrichment scores 2, not 1,
because the source tests JavaScript truthiness, not nullity. -/
theorem enrich_nonnull_arrival_not_score_one :
    relevantAnalysis cmeEmptyArr = some anaEmptyArr
      ∧ firstEarthEnlil anaEmptyArr = some simEmptyArr
      ∧ simEmptyArr.estimatedShockArrivalTime = some ("")
      ∧ (enhanceCMEData cmeEmptyArr).earthImpactScore = JsNum.fin 2
      ∧ (enhanceCMEData cmeEmptyArr).earthImpactScore ≠ JsNum.fin 1 := by
  decide

/-- C1 witness, the section 8 scenario A record. -/
theorem enrich_primary_truthy_arrival_witness :
    (enhanceCMEData cmeA).earthImpactScore = JsNum.fin 1
      ∧ (enhanceCMEData cmeA).displayEnlilArrivalTime = simA.estimatedShockArrivalTime
      ∧ (enhanceCMEData cmeA).displayEnlilDuration = simA.estimatedDuration
      ∧ (∀ il, simA.impactList = some il →
          (enhanceCMEData cmeA).displayEnlilImpactLocations
            = some (il.map (fun imp => imp.location)))
      ∧ (simA.impactList = none → simA.isEarthGB = some true →
          (enhanceCMEData cmeA).displayEnlilImpactLocations
            = some (["Earth Geospace"])) :=
  enrich_primary_truthy_arrival cmeA anaA simA ("2024-03-01T12:00Z")
    (by decide) (by decide) (by decide) (by decide)

/-- C2 (amended): a CME whose relevant analysis has a primary (first, in feed
order) Earth-flagged simulation with a truthy arrival time scores exactly 1,
and no input scores below the tier of the first matching rule of the decision
list as the code implements it, whose rule 3 requires only that the note of
the relevant analysis mention earth. -/
theorem enrich_score_tier_bound :
    (∀ (cme : CME) (ra : CMEAnalysis) (fe : EnlilSimulation) (t : String),
        relevantAnalysis cme = some ra → firstEarthEnlil ra = some fe →
        fe.estimatedShockArrivalTime = some t → t ≠ ("") →
        (enhanceCMEData cme).earthImpactScore = JsNum.fin 1)
      ∧ (∀ cme : CME,
          JsNum.leB (codeTier cme) (enhanceCMEData cme).earthImpactScore = true) := by
  constructor
  · intro cme ra fe t hra hfe ht hne
    have hfields := enhance_earthSim_fields cme ra fe hra hfe
    refine hfields.2.2.2.1 ?_
    rw [ht]
    exact jsTruthyStr_some_of_ne hne
  · intro cme
    rw [enhance_score_eq_codeTier]
    exact jsNum_leB_refl (codeTier cme)

/-- C2 counterexample: cmeTwoSims has an Earth-flagged simulation bearing a
non-null arrival time yet scores 2, because only the first Earth-flagged
simulation is consulted; and cmeNoteOnly scores 3, strictly below its
section 4.1 rule tier of Infinity, because the code does not require a
nonempty impact list for rule 3. -/
theorem earth_sim_arrival_not_always_one :
    (hasEarthSimWithArrival cmeTwoSims = true
        ∧ (enhanceCMEData cmeTwoSims).earthImpactScore = JsNum.fin 2
        ∧ (enhanceCMEData cmeTwoSims).earthImpactScore ≠ JsNum.fin 1)
      ∧ ((enhanceCMEData cmeNoteOnly).earthImpactScore = JsNum.fin 3
        ∧ specTier cmeNoteOnly = JsNum.inf
        ∧ JsNum.ltB (enhanceCMEData cmeNoteOnly).earthImpactScore
            (specTier cmeNoteOnly) = true) := by
  decide

/-- C2 witness: the scenario A record scores 1, and cmeNoteOnly meets its
code-tier bound. -/
theorem enrich_score_tier_bound_witness :
    (enhanceCMEData cmeA).earthImpactScore = JsNum.fin 1
      ∧ JsNum.leB (codeTier cmeNoteOnly)
          (enhanceCMEData cmeNoteOnly).earthImpactScore = true :=
  ⟨enrich_score_tier_bound.1 cmeA anaA simA ("2024-03-01T12:00Z")
      (by decide) (by decide) (by decide) (by decide),
    enrich_score_tier_bound.2 cmeNoteOnly⟩

theorem buildCMEInfos_eq_filterMap (cmes : List EnhancedCME)
    (les : List LinkedEventRef) :
    buildCMEInfos cmes les
      = les.filterMap (fun le => (cmeLookup cmes le.activityID).map cmeInfoOf) := by
  induction les with
  | nil => rfl
  | cons le rest ih =>
    cases hl : cmeLookup cmes le.activityID with
    | some c => simp [buildCMEInfos, hl, ih, List.filterMap_cons]
    | none => simp [buildCMEInfos, hl, ih, List.filterMap_cons]

/-- C7: flare correlation walks the linked events in feed order and collects,
for each identifier the lookup resolves, exactly the five-field projection of
the matching enhanced record; unresolved identifiers are skipped silently,
and the attached list is absent exactly when no identifier resolves. -/
theorem correlate_flare_projection (cmes : List EnhancedCME) (flare : SolarFlare) :
    ((annotateFlare cmes flare).associatedCMEs.getD []
        = (flare.linkedEvents.getD []).filterMap
            (fun le => (cmeLookup cmes le.activityID).map cmeInfoOf))
      ∧ ((annotateFlare cmes flare).associatedCMEs = none ↔
            ∀ le ∈ flare.linkedEvents.getD [], cmeLookup cmes le.activityID = none) := by
  have hb := buildCMEInfos_eq_filterMap cmes (flare.linkedEvents.getD [])
  unfold annotateFlare
  cases hbi : buildCMEInfos cmes (flare.linkedEvents.getD []) with
  | nil =>
    rw [hbi] at hb
    constructor
    · simp [← hb]
    · simp only [List.isEmpty_nil, if_true]
      constructor
      · intro _ le hle
        have hmap := List.filterMap_eq_nil_iff.mp hb.symm le hle
        cases hc : cmeLookup cmes le.activityID with
        | none => rfl
        | some c => rw [hc] at hmap; simp at hmap
      · intro _
        trivial
  | cons x xs =>
    rw [hbi] at hb
    constructor
    · simp [← hb]
    · simp only [List.isEmpty_cons, if_false]
      constructor
      · intro hsome
        simp at hsome
      · intro hall
        have hnil : (flare.linkedEvents.getD []).filterMap
            (fun le => (cmeLookup cmes le.activityID).map cmeInfoOf) = [] :=
          List.filterMap_eq_nil_iff.mpr (fun le hle => by rw [hall le hle]; rfl)
        rw [← hb] at hnil
        simp at hnil

theorem findFirstLinked_append (cmes : List EnhancedCME) (l1 : List LinkedEventRef)
    (le : LinkedEventRef) (l2 : List LinkedEventRef) (c : EnhancedCME)
    (h1 : ∀ le2 ∈ l1, cmeLookup cmes le2.activityID = none)
    (hle : cmeLookup cmes le.activityID = some c) :
    findFirstLinked cmes (l1 ++ le :: l2) = some c := by
  induction l1 with
  | nil => simp [findFirstLinked, hle]
  | cons x xs ih =>
    have hx := h1 x (List.mem_cons_self x xs)
    simp only [List.cons_append, findFirstLinked, hx]
    exact ih (fun z hz => h1 z (List.mem_cons_of_mem x hz))

/-- C8 (amended): shock correlation takes the first linked identifier the
lookup resolves, ignoring any earlier unresolvable identifiers and every
later one, and copies from that single record its startTime, link and
activityID, together with its analysis speed unless the speed is 0 or absent
(JavaScript-falsy), in which case the speed field stays unset. -/
theorem correlate_shock_first_match (cmes : List EnhancedCME)
    (ips : InterplanetaryShock) (l1 : List LinkedEventRef) (le : LinkedEventRef)
    (l2 : List LinkedEventRef) (c : EnhancedCME)
    (hl : ips.linkedEvents = some (l1 ++ le :: l2))
    (h1 : ∀ le2 ∈ l1, cmeLookup cmes le2.activityID = none)
    (hle : cmeLookup cmes le.activityID = some c) :
    (annotateShock cmes ips).associatedCMEActivityID = some c.activityID
      ∧ (annotateShock cmes ips).associatedCMEStartTime = some c.startTime
      ∧ (annotateShock cmes ips).associatedCMELink = some c.link
      ∧ (annotateShock cmes ips).associatedCMESpeed
          = jsSpeedOrUndefined c.displayAnalysisSpeed := by
  have hff := findFirstLinked_append cmes l1 le l2 c h1 hle
  unfold annotateShock
  rw [hl]
  simp only [Option.getD_some, hff]
  simp

/-- C8 counterexample: the zero-speed record resolves as causative CME of
shockZero, its displayAnalysisSpeed is the number 0, yet the copied speed
field is absent, because 0 is JavaScript-falsy. -/
theorem correlate_shock_speed_not_copied :
    cmeLookup [enhanceCMEData cmeZeroSpeed] (("2024-03-08T08:00:00-CME-001"))
        = some (enhanceCMEData cmeZeroSpeed)
      ∧ (enhanceCMEData cmeZeroSpeed).displayAnalysisSpeed = some 0
      ∧ (annotateShock [enhanceCMEData cmeZeroSpeed] shockZero).associatedCMESpeed
          = none
      ∧ (annotateShock [enhanceCMEData cmeZeroSpeed] shockZero).associatedCMESpeed
          ≠ (enhanceCMEData cmeZeroSpeed).displayAnalysisSpeed := by
  decide

/-- C8 witness: shockMulti names an unresolvable identifier, then the
scenario A record, then the zero-speed record; the annotation copies the
scenario A fields and ignores the later resolvable identifier. -/
theorem correlate_shock_first_match_witness :
    (annotateShock [enhanceCMEData cmeA, enhanceCMEData cmeZeroSpeed]
          shockMulti).associatedCMEActivityID = some (enhanceCMEData cmeA).activityID
      ∧ (annotateShock [enhanceCMEData cmeA, enhanceCMEData cmeZeroSpeed]
          shockMulti).associatedCMEStartTime = some (enhanceCMEData cmeA).startTime
      ∧ (annotateShock [enhanceCMEData cmeA, enhanceCMEData cmeZeroSpeed]
          shockMulti).associatedCMELink = some (enhanceCMEData cmeA).link
      ∧ (annotateShock [enhanceCMEData cmeA, enhanceCMEData cmeZeroSpeed]
          shockMulti).associatedCMESpeed
          = jsSpeedOrUndefined (enhanceCMEData cmeA).displayAnalysisSpeed :=
  correlate_shock_first_match [enhanceCMEData cmeA, enhanceCMEData cmeZeroSpeed]
    shockMulti [{ activityID := ("2023-01-01T00:00:00-CME-999") }]
    { activityID := ("2024-03-01T01:00:00-CME-001") }
    [{ activityID := ("2024-03-08T08:00:00-CME-001") }]
    (enhanceCMEData cmeA) (by decide) (by decide) (by decide)

theorem validScore_not_le3_iff {s : JsNum} (h : validScore s) :
    (¬ JsNum.leB s (JsNum.fin 3) = true) ↔ (s = JsNum.fin 4 ∨ s = JsNum.inf) := by
  rcases h with h | h | h | h | h <;> subst h <;> simp [JsNum.leB]

/-- C3: under the data-model invariants (activity identifiers unique within
the fetch window, scores among 1, 2, 3, 4 and Infinity) the partition loses
and duplicates nothing: the two lists together are a permutation of the
input, membership in the earth-directed list is exactly score at most 3, and
the other list receives exactly the records scoring 4 or Infinity. -/
theorem partition_complete (l : List EnhancedCME)
    (hid : (l.map EnhancedCME.activityID).Nodup)
    (hv : ∀ c ∈ l, validScore c.earthImpactScore) :
    List.Perm (earthDirectedCMEs l ++ otherCMEs l) l
      ∧ (∀ c, c ∈ earthDirectedCMEs l ↔
          c ∈ l ∧ JsNum.leB c.earthImpactScore (JsNum.fin 3) = true)
      ∧ (∀ c, c ∈ otherCMEs l ↔
          c ∈ l ∧ (c.earthImpactScore = JsNum.fin 4
            ∨ c.earthImpactScore = JsNum.inf)) := by
  have hmemE : ∀ c, c ∈ earthDirectedCMEs l ↔
      c ∈ l ∧ JsNum.leB (scoreOrInf c.earthImpactScore) (JsNum.fin 3) = true := by
    intro c
    unfold earthDirectedCMEs
    rw [mem_jsStableSort, List.mem_filter]
  have hpe : ∀ c ∈ l, JsNum.leB (scoreOrInf c.earthImpactScore) (JsNum.fin 3)
      = JsNum.leB c.earthImpactScore (JsNum.fin 3) := by
    intro c hc
    rw [scoreOrInf_eq_of_ne_zero (validScore_ne_zero (hv c hc))]
  have hE : ∀ c, c ∈ earthDirectedCMEs l ↔
      c ∈ l ∧ JsNum.leB c.earthImpactScore (JsNum.fin 3) = true := by
    intro c
    rw [hmemE c]
    constructor
    · rintro ⟨hc, hp⟩
      exact ⟨hc, by rw [← hpe c hc]; exact hp⟩
    · rintro ⟨hc, hp⟩
      exact ⟨hc, by rw [hpe c hc]; exact hp⟩
  have hinj : ∀ x ∈ l, ∀ y ∈ l, x.activityID = y.activityID → x = y := by
    intro x hx y hy hxy
    exact List.inj_on_of_nodup_map hid hx hy hxy
  have hanyE : ∀ c ∈ l,
      (((earthDirectedCMEs l).any fun ed => ed.activityID == c.activityID) = true
        ↔ c ∈ earthDirectedCMEs l) := by
    intro c hc
    constructor
    · intro h
      rcases List.any_eq_true.mp h with ⟨ed, hedE, heq⟩
      have hedl : ed ∈ l := ((hmemE ed).mp hedE).1
      have hedc : ed = c := hinj ed hedl c hc (eq_of_beq heq)
      rw [← hedc]
      exact hedE
    · intro h
      exact List.any_eq_true.mpr ⟨c, h, by simp⟩
  have hboolE : ∀ c ∈ l,
      ((earthDirectedCMEs l).any fun ed => ed.activityID == c.activityID)
        = JsNum.leB (scoreOrInf c.earthImpactScore) (JsNum.fin 3) := by
    intro c hc
    by_cases hmem : c ∈ earthDirectedCMEs l
    · rw [(hanyE c hc).mpr hmem, ((hmemE c).mp hmem).2]
    · have h1 : ((earthDirectedCMEs l).any fun ed => ed.activityID == c.activityID)
          = false := by
        cases hA : ((earthDirectedCMEs l).any fun ed => ed.activityID == c.activityID) with
        | true => exact absurd ((hanyE c hc).mp hA) hmem
        | false => rfl
      have h2 : JsNum.leB (scoreOrInf c.earthImpactScore) (JsNum.fin 3) = false := by
        cases hP : JsNum.leB (scoreOrInf c.earthImpactScore) (JsNum.fin 3) with
        | true => exact absurd ((hmemE c).mpr ⟨hc, hP⟩) hmem
        | false => rfl
      rw [h1, h2]
  have hother : otherCMEs l
      = l.filter (fun c => !(JsNum.leB (scoreOrInf c.earthImpactScore) (JsNum.fin 3))) := by
    unfold otherCMEs
    exact List.filter_congr (fun c hc => by rw [hboolE c hc])
  refine ⟨?_, hE, ?_⟩
  · rw [hother]
    unfold earthDirectedCMEs
    exact (List.Perm.append (jsStableSort_perm _ _) (List.Perm.refl _)).trans
      (List.filter_append_perm _ l)
  · intro c
    rw [hother, List.mem_filter]
    constructor
    · rintro ⟨hc, hp⟩
      refine ⟨hc, ?_⟩
      rw [← validScore_not_le3_iff (hv c hc)]
      intro hcon
      rw [← hpe c hc] at hcon
      rw [hcon] at hp
      simp at hp
    · rintro ⟨hc, h4⟩
      refine ⟨hc, ?_⟩
      have hnot := (validScore_not_le3_iff (hv c hc)).mpr h4
      rw [hpe c hc]
      cases hP : JsNum.leB c.earthImpactScore (JsNum.fin 3) with
      | true => exact absurd hP hnot
      | false => rfl

/-- C3 witness: a two-record window with scores 1 and 4 partitions with no
loss and no duplication. -/
theorem partition_complete_witness :
    List.Perm (earthDirectedCMEs [edEarly, edOther] ++ otherCMEs [edEarly, edOther])
        [edEarly, edOther]
      ∧ (∀ c, c ∈ earthDirectedCMEs [edEarly, edOther] ↔
          c ∈ [edEarly, edOther] ∧ JsNum.leB c.earthImpactScore (JsNum.fin 3) = true)
      ∧ (∀ c, c ∈ otherCMEs [edEarly, edOther] ↔
          c ∈ [edEarly, edOther] ∧ (c.earthImpactScore = JsNum.fin 4
            ∨ c.earthImpactScore = JsNum.inf)) :=
  partition_complete [edEarly, edOther] (by decide) (by decide)

/-- C4: under the score invariant of the data model the earth-directed list
is pairwise ordered by ascending score, then, for records both scoring 1, by
ascending arrival time with absent arrival times last, and all remaining
ties by descending startTime. -/
theorem earth_directed_sorted (l : List EnhancedCME)
    (hv : ∀ c ∈ l, validScore c.earthImpactScore) :
    (earthDirectedCMEs l).Pairwise claimOrder := by
  have hvf : ∀ c ∈ l.filter
      (fun c => JsNum.leB (scoreOrInf c.earthImpactScore) (JsNum.fin 3)),
      validScore c.earthImpactScore :=
    fun c hc => hv c (List.mem_filter.mp hc).1
  have hT : ∀ x y z : EnhancedCME, validScore x.earthImpactScore →
      validScore y.earthImpactScore → validScore z.earthImpactScore →
      earthLe x y = true → earthLe y z = true → earthLe x z = true :=
    fun x y z hx hy hz h1 h2 =>
      (earthLe_iff_claimOrder hx hz).mpr
        (claimOrder_trans ((earthLe_iff_claimOrder hx hy).mp h1)
          ((earthLe_iff_claimOrder hy hz).mp h2))
  have hTot : ∀ x y : EnhancedCME, validScore x.earthImpactScore →
      validScore y.earthImpactScore → earthLe x y = true ∨ earthLe y x = true :=
    fun x y hx hy =>
      (claimOrder_total x y).imp (earthLe_iff_claimOrder hx hy).mpr
        (earthLe_iff_claimOrder hy hx).mpr
  have hPW := pairwise_jsStableSort hT hTot hvf
  unfold earthDirectedCMEs
  refine List.Pairwise.imp_of_mem ?_ hPW
  intro x y hx hy hxy
  have hvx := hvf x ((mem_jsStableSort earthLe x _).mp hx)
  have hvy := hvf y ((mem_jsStableSort earthLe y _).mp hy)
  exact (earthLe_iff_claimOrder hvx hvy).mp hxy

/-- C4 witness: two records both scoring 1 with arrival times
2024-01-01T10:00Z and 2024-01-01T08:00Z sort with the earlier arrival time
first, and the resulting list is pairwise in the stated order. -/
theorem earth_directed_sorted_witness :
    earthDirectedCMEs [edLate, edEarly] = [edEarly, edLate]
      ∧ (earthDirectedCMEs [edLate, edEarly]).Pairwise claimOrder :=
  ⟨by decide, earth_directed_sorted [edLate, edEarly] (by decide)⟩
